import Mathlib

/-!
Shallow embedding of the holo-chat (WhisperLink / WhisperVault) repository:
the Solidity contract src/contracts/WhisperVault.sol and the client logic in
src/frontend/hooks/useWhisperVault.ts, together with theorems settling the
specification claims about them.

Addresses are modelled as natural numbers, byte strings as lists of naturals,
uint256 arithmetic as checked natural-number arithmetic (Solidity 0.8 reverts
on underflow), and a reverting call as an Except result whose error carries
the revert reason.
-/

namespace WhisperVault

/-- Ethereum addresses, modelled as natural numbers. -/
abbrev Address := Nat

/-- Byte strings (Solidity bytes), modelled as lists of naturals. -/
abbrev Bytes := List Nat

/-- The Message struct of WhisperVault.sol:
    string label; address sender; bytes encryptedContent;
    uint256 timestamp; bool isResponse. -/
structure Message where
  label : String
  sender : Address
  encryptedContent : Bytes
  timestamp : Nat
  isResponse : Bool
deriving DecidableEq, Repr

/-- Contract storage: mapping(address => Message[]) private _userMessages. -/
abbrev VaultState := Address → List Message

/-- Storage right after deployment: every dynamic array is empty. -/
def emptyVault : VaultState := fun _ => []

/-- The MessageStored event:
    event MessageStored(address indexed user, uint256 indexed messageIndex,
    uint256 timestamp, bool isResponse, uint256 size). -/
structure MessageStoredEvent where
  user : Address
  messageIndex : Nat
  timestamp : Nat
  isResponse : Bool
  size : Nat
deriving DecidableEq, Repr

/-- Function getMessageCount(address user): returns _userMessages[user].length. -/
def getMessageCount (s : VaultState) (user : Address) : Nat :=
  (s user).length

/-- Function getMessageMetadata(address user, uint256 index):
    require(index < _userMessages[user].length, "Vault: Index error");
    then returns (sender, timestamp, isResponse) of the indexed message. -/
def getMessageMetadata (s : VaultState) (user : Address) (index : Nat) :
    Except String (Address × Nat × Bool) :=
  if h : index < (s user).length then
    let m := (s user).get ⟨index, h⟩
    .ok (m.sender, m.timestamp, m.isResponse)
  else
    .error "Vault: Index error"

/-- Function getEncryptedContent(address user, uint256 index):
    require(index < _userMessages[user].length, "Vault: Index error");
    then returns the encryptedContent bytes of the indexed message. -/
def getEncryptedContent (s : VaultState) (user : Address) (index : Nat) :
    Except String Bytes :=
  if h : index < (s user).length then
    .ok ((s user).get ⟨index, h⟩).encryptedContent
  else
    .error "Vault: Index error"

/-- Function getMessage(address user, uint256 index):
    require(index < _userMessages[user].length, "Vault: Index error");
    then returns (sender, encryptedContent, timestamp, isResponse). -/
def getMessage (s : VaultState) (user : Address) (index : Nat) :
    Except String (Address × Bytes × Nat × Bool) :=
  if h : index < (s user).length then
    let m := (s user).get ⟨index, h⟩
    .ok (m.sender, m.encryptedContent, m.timestamp, m.isResponse)
  else
    .error "Vault: Index error"

/-- Function getAllMessages(address user): returns _userMessages[user]. -/
def getAllMessages (s : VaultState) (user : Address) : List Message :=
  s user

/-- Storage update used by push: appends one message to the array at key a. -/
def pushMessage (s : VaultState) (a : Address) (m : Message) : VaultState :=
  fun b => if b = a then s b ++ [m] else s b

/-- Function storeMessage(bytes calldata encryptedContent), called with
    msg.sender = sender and block.timestamp = blockTimestamp on a contract
    deployed at thisAddr.  Faithful to the source:
    require(encryptedContent.length > 0, "Empty message");
    require(encryptedContent.length <= 16384, "Message too large");
    push onto _userMessages[address(this)] the record
    (label "", sender msg.sender, encryptedContent, block.timestamp, false);
    then emit MessageStored(msg.sender, _userMessages[msg.sender].length - 1,
    block.timestamp, false, encryptedContent.length).  The subtraction is
    checked uint256 arithmetic, so a zero length reverts with a panic. -/
def storeMessage (thisAddr sender blockTimestamp : Nat) (encryptedContent : Bytes)
    (s : VaultState) : Except String (VaultState × MessageStoredEvent) :=
  if ¬ encryptedContent.length > 0 then .error "Empty message"
  else if ¬ encryptedContent.length ≤ 16384 then .error "Message too large"
  else
    let s' := pushMessage s thisAddr
      ⟨"", sender, encryptedContent, blockTimestamp, false⟩
    if (s' sender).length = 0 then .error "panic: arithmetic underflow"
    else .ok (s', ⟨sender, (s' sender).length - 1, blockTimestamp, false,
      encryptedContent.length⟩)

/-- Function storeResponse(bytes calldata encryptedContent), called with
    msg.sender = sender and block.timestamp = blockTimestamp on a contract
    deployed at thisAddr.  Faithful to the source:
    require(encryptedContent.length > 0, "Empty message");
    require(encryptedContent.length <= 16384, "Message too large");
    push onto _userMessages[address(this)] the record
    (label "", sender address(this), encryptedContent, block.timestamp, true);
    then emit MessageStored(msg.sender, _userMessages[msg.sender].length - 1,
    block.timestamp, true, encryptedContent.length), with checked subtraction. -/
def storeResponse (thisAddr sender blockTimestamp : Nat) (encryptedContent : Bytes)
    (s : VaultState) : Except String (VaultState × MessageStoredEvent) :=
  if ¬ encryptedContent.length > 0 then .error "Empty message"
  else if ¬ encryptedContent.length ≤ 16384 then .error "Message too large"
  else
    let s' := pushMessage s thisAddr
      ⟨"", thisAddr, encryptedContent, blockTimestamp, true⟩
    if (s' sender).length = 0 then .error "panic: arithmetic underflow"
    else .ok (s', ⟨sender, (s' sender).length - 1, blockTimestamp, true,
      encryptedContent.length⟩)

/-- Function clearMessages(): delete _userMessages[msg.sender];
    emit MessagesCleared(msg.sender).  Never reverts; only the state change
    is modelled, the emitted event carries the caller address. -/
def clearMessages (sender : Address) (s : VaultState) : VaultState :=
  fun b => if b = sender then [] else s b

/-- Function requestDecryption(): only emits
    DecryptionRequested(msg.sender, block.timestamp); no requirement check,
    no storage write.  The emitted event is returned with the unchanged state. -/
def requestDecryption (sender blockTimestamp : Nat) (s : VaultState) :
    Except String (VaultState × (Address × Nat)) :=
  .ok (s, (sender, blockTimestamp))

/-- One append call made by a caller: either storeMessage or storeResponse,
    with the payload it carries and the block timestamp of the call. -/
inductive VaultCall where
  | store (content : Bytes) (blockTimestamp : Nat)
  | respond (content : Bytes) (blockTimestamp : Nat)
deriving DecidableEq, Repr

/-- The record that a successful call appends to _userMessages[address(this)],
    read off from the push expressions in storeMessage and storeResponse. -/
def VaultCall.record (thisAddr sender : Address) : VaultCall → Message
  | .store content blockTimestamp => ⟨"", sender, content, blockTimestamp, false⟩
  | .respond content blockTimestamp => ⟨"", thisAddr, content, blockTimestamp, true⟩

/-- Payload carried by a call. -/
def VaultCall.content : VaultCall → Bytes
  | .store c _ => c
  | .respond c _ => c

/-- Runs a sequence of append calls, all made by the same caller, stopping at
    the first revert (a reverted transaction leaves storage unchanged, and the
    sequence counts only successful calls, so a revert has no continuation). -/
def runCalls (thisAddr sender : Address) : List VaultCall → VaultState →
    Except String VaultState
  | [], s => .ok s
  | c :: rest, s =>
    let r := match c with
      | .store content blockTimestamp =>
          storeMessage thisAddr sender blockTimestamp content s
      | .respond content blockTimestamp =>
          storeResponse thisAddr sender blockTimestamp content s
    match r with
    | .ok (s', _) => runCalls thisAddr sender rest s'
    | .error e => .error e

/-- States reachable from deployment of a WhisperVault contract at thisAddr by
    any interleaving of its externally callable state-changing functions, with
    arbitrary callers, payloads and block timestamps. -/
inductive Reachable (thisAddr : Address) : VaultState → Prop where
  | init : Reachable thisAddr emptyVault
  | store {s s' : VaultState} {ev : MessageStoredEvent}
      (sender blockTimestamp : Nat) (content : Bytes) :
      Reachable thisAddr s →
      storeMessage thisAddr sender blockTimestamp content s = .ok (s', ev) →
      Reachable thisAddr s'
  | respond {s s' : VaultState} {ev : MessageStoredEvent}
      (sender blockTimestamp : Nat) (content : Bytes) :
      Reachable thisAddr s →
      storeResponse thisAddr sender blockTimestamp content s = .ok (s', ev) →
      Reachable thisAddr s'
  | clear {s : VaultState} (sender : Address) :
      Reachable thisAddr s →
      Reachable thisAddr (clearMessages sender s)

end WhisperVault

namespace WhisperClient

/-- The Message interface of useWhisperVault.ts:
    id, sender, encryptedContent (a hex string in the code, kept opaque here),
    timestamp, isResponse, and the optional decryptedText field. -/
structure ClientMessage where
  id : Nat
  sender : String
  encryptedContent : String
  timestamp : Nat
  isResponse : Bool
  decryptedText : Option String
deriving DecidableEq, Repr

/-- One element of the per-message decryption batch of decryptAllMessages in
    useWhisperVault.ts: try to decrypt the message content with the password
    and attach it as decryptedText; a thrown decryption error is caught and
    the message is returned with decryptedText "[Decryption failed]" instead.
    The external decryptText routine is a parameter; a throw is its error case. -/
def decryptStep (decryptText : String → String → Except String String)
    (password : String) (msg : ClientMessage) : ClientMessage :=
  match decryptText msg.encryptedContent password with
  | .ok d => { msg with decryptedText := some d }
  | .error _ => { msg with decryptedText := some "[Decryption failed]" }

/-- The decryption batch of decryptAllMessages (useWhisperVault.ts lines
    288-302): messages.map over the per-message try/decrypt/catch step.
    Promise.all of per-element total computations is their list of results. -/
def decryptMessagesBatch (decryptText : String → String → Except String String)
    (password : String) (messages : List ClientMessage) : List ClientMessage :=
  messages.map (decryptStep decryptText password)

/-- The demo-mode branch of loadMessages (useWhisperVault.ts lines 133-144):
    stored = localStorage.getItem(key); if (stored) is JavaScript truthiness,
    false for null and for the empty string; on a truthy value,
    setMessages(JSON.parse(stored)), and when JSON.parse throws,
    localStorage.removeItem(key) then setMessages([]).  The JSON.parse routine
    is a parameter; the result is the pair (cache entry after, messages after). -/
def loadMessagesDemo (parseJson : String → Except String (List ClientMessage))
    (stored : Option String) (messages : List ClientMessage) :
    Option String × List ClientMessage :=
  match stored with
  | none => (stored, messages)
  | some raw =>
    if raw = "" then (stored, messages)
    else
      match parseJson raw with
      | .ok parsed => (stored, parsed)
      | .error _ => (none, [])

/-- The local-storage fallback in the catch branch of loadMessages
    (useWhisperVault.ts lines 169-178): same truthiness guard and JSON.parse,
    but a parse failure only does setMessages([]) and keeps the cache entry. -/
def loadMessagesFallback (parseJson : String → Except String (List ClientMessage))
    (stored : Option String) (messages : List ClientMessage) :
    Option String × List ClientMessage :=
  match stored with
  | none => (stored, messages)
  | some raw =>
    if raw = "" then (stored, messages)
    else
      match parseJson raw with
      | .ok parsed => (stored, parsed)
      | .error _ => (stored, [])

end WhisperClient

namespace WhisperCrypto

/-- Byte strings, as in the contract model. -/
abbrev Bytes := List Nat

/-- Fixed byte length of the random salt prefix of an encrypted payload. -/
def saltLen : Nat := 16

/-- Fixed byte length of the random initialization-vector prefix. -/
def ivLen : Nat := 12

/-- Modelled from the spec: the client codec useCrypto.ts (encryptText and
    decryptText, imported by useWhisperVault.ts) is not under src/.  The spec
    describes a standard password-based key derivation function with a fixed
    iteration count, applied to the password plus a freshly generated random
    salt.  The derivation is modelled as an iterated deterministic mixing of
    the password and salt bytes, with a fixed iteration count of 1000. -/
def deriveKey (password salt : Bytes) : Nat :=
  (fun h => (h * 1103515245 + 12345) % 4294967296)^[1000]
    ((password ++ salt).foldl (fun acc b => (acc * 131 + b + 1) % 4294967296)
      2166136261)

/-- Modelled from the spec: packs an initialization-vector byte list into one
    number, so the keystream and tag can depend on the whole vector. -/
def wordOf (bs : Bytes) : Nat :=
  bs.foldl (fun acc b => acc * 256 + b) 0

/-- Modelled from the spec: one keystream byte of the symmetric cipher,
    determined by the derived key, the initialization vector and the byte
    position. -/
def keystreamByte (key ivWord i : Nat) : Nat :=
  (key + ivWord * 31 + i * 17 + key * ivWord * (i + 1)) % 256

/-- Modelled from the spec: the symmetric cipher core, combining each byte
    with the position-dependent keystream byte; combining twice with the same
    key and vector restores the input. -/
def xorStream (key ivWord : Nat) : Nat → Bytes → Bytes
  | _, [] => []
  | i, b :: rest => (b ^^^ keystreamByte key ivWord i) :: xorStream key ivWord (i + 1) rest

/-- Modelled from the spec: the authentication tag embedded in the ciphertext
    of the authenticated cipher, a deterministic digest of the ciphertext under
    the derived key and initialization vector. -/
def authTag (key ivWord : Nat) (ct : Bytes) : Nat :=
  ct.foldl (fun acc b => (acc * 257 + b + 3) % 4294967296)
    ((key + ivWord * 7919 + 1) % 4294967296)

/-- Modelled from the spec: encryptText of the missing useCrypto.ts.  Derives
    a per-call key from the password and the fresh random salt, encrypts with
    the authenticated cipher under the fresh random initialization vector, and
    outputs salt, then vector, then ciphertext with its embedded tag.  The
    fresh randomness (salt and vector) is passed in by the caller. -/
def encryptText (salt iv : Bytes) (plaintext password : Bytes) : Bytes :=
  let key := deriveKey password salt
  let ivW := wordOf iv
  let ct := xorStream key ivW 0 plaintext
  salt ++ (iv ++ (ct ++ [authTag key ivW ct]))

/-- Modelled from the spec: decryptText of the missing useCrypto.ts.  Splits
    the payload into the fixed-length salt and vector prefixes and the
    ciphertext tail, re-derives the key from the embedded salt and the
    password, verifies the embedded authentication tag, and either returns the
    recovered plaintext or fails (wrong password or corrupted payload). -/
def decryptText (payload : Bytes) (password : Bytes) : Except String Bytes :=
  if payload.length < saltLen + ivLen + 1 then .error "Decryption failed"
  else
    let salt := payload.take saltLen
    let rest := payload.drop saltLen
    let iv := rest.take ivLen
    let body := rest.drop ivLen
    let ct := body.dropLast
    let tag := body.getLast?.getD 0
    let key := deriveKey password salt
    let ivW := wordOf iv
    if authTag key ivW ct = tag then .ok (xorStream key ivW 0 ct)
    else .error "Decryption failed"

end WhisperCrypto

namespace WhisperVault

/-! Helper lemmas about the contract embedding. -/

/-- Evaluation of the push update at the pushed-to key. -/
theorem pushMessage_self (s : VaultState) (a : Address) (m : Message) :
    pushMessage s a m a = s a ++ [m] := by
  simp [pushMessage]

/-- Evaluation of the push update away from the pushed-to key. -/
theorem pushMessage_other {s : VaultState} {a b : Address} (m : Message)
    (h : b ≠ a) : pushMessage s a m b = s b := by
  simp [pushMessage, h]

/-- A successful storeMessage call pushed exactly the record built from its
    arguments onto the array at the contract address. -/
theorem storeMessage_ok_state {thisAddr sender blockTimestamp : Nat}
    {content : Bytes} {s s' : VaultState} {ev : MessageStoredEvent}
    (h : storeMessage thisAddr sender blockTimestamp content s = .ok (s', ev)) :
    s' = pushMessage s thisAddr ⟨"", sender, content, blockTimestamp, false⟩ := by
  simp only [storeMessage] at h
  split at h
  · exact absurd h (by simp)
  · split at h
    · exact absurd h (by simp)
    · split at h
      · exact absurd h (by simp)
      · injection h with h1
        exact (congrArg Prod.fst h1).symm

/-- A successful storeResponse call pushed exactly the record built from its
    arguments onto the array at the contract address. -/
theorem storeResponse_ok_state {thisAddr sender blockTimestamp : Nat}
    {content : Bytes} {s s' : VaultState} {ev : MessageStoredEvent}
    (h : storeResponse thisAddr sender blockTimestamp content s = .ok (s', ev)) :
    s' = pushMessage s thisAddr ⟨"", thisAddr, content, blockTimestamp, true⟩ := by
  simp only [storeResponse] at h
  split at h
  · exact absurd h (by simp)
  · split at h
    · exact absurd h (by simp)
    · split at h
      · exact absurd h (by simp)
      · injection h with h1
        exact (congrArg Prod.fst h1).symm

/-- In every reachable state, every array other than the one at the contract
    address is empty: both append operations push only onto the array keyed by
    the contract address, and clearing only deletes. -/
theorem reachable_other_empty {thisAddr : Address} {s : VaultState}
    (hr : Reachable thisAddr s) : ∀ a, a ≠ thisAddr → s a = [] := by
  induction hr with
  | init => intro a _; rfl
  | store sender blockTimestamp content _ hok ih =>
      intro a ha
      rw [storeMessage_ok_state hok, pushMessage_other _ ha]
      exact ih a ha
  | respond sender blockTimestamp content _ hok ih =>
      intro a ha
      rw [storeResponse_ok_state hok, pushMessage_other _ ha]
      exact ih a ha
  | clear sender _ ih =>
      intro a ha
      simp only [clearMessages]
      split
      · rfl
      · exact ih a ha

/-- With a caller distinct from the contract address whose own array is empty,
    storeMessage reverts on every payload: a payload failing a length check
    hits that require, and any other payload reaches the event index
    computation, whose checked subtraction underflows. -/
theorem storeMessage_reverts_of_empty {thisAddr sender : Address}
    {s : VaultState} (hne : sender ≠ thisAddr) (hemp : s sender = [])
    (blockTimestamp : Nat) (content : Bytes) :
    ∃ e, storeMessage thisAddr sender blockTimestamp content s = .error e := by
  simp only [storeMessage]
  split
  · exact ⟨_, rfl⟩
  · split
    · exact ⟨_, rfl⟩
    · rw [if_pos]
      · exact ⟨_, rfl⟩
      · rw [pushMessage_other _ hne, hemp]
        rfl

/-- Same revert-everywhere fact for storeResponse. -/
theorem storeResponse_reverts_of_empty {thisAddr sender : Address}
    {s : VaultState} (hne : sender ≠ thisAddr) (hemp : s sender = [])
    (blockTimestamp : Nat) (content : Bytes) :
    ∃ e, storeResponse thisAddr sender blockTimestamp content s = .error e := by
  simp only [storeResponse]
  split
  · exact ⟨_, rfl⟩
  · split
    · exact ⟨_, rfl⟩
    · rw [if_pos]
      · exact ⟨_, rfl⟩
      · rw [pushMessage_other _ hne, hemp]
        rfl

/-- On a payload passing both length checks, the revert of the previous lemma
    is specifically the arithmetic-underflow panic of the event index. -/
theorem storeMessage_panic_of_empty {thisAddr sender : Address}
    {s : VaultState} (hne : sender ≠ thisAddr) (hemp : s sender = [])
    (blockTimestamp : Nat) {content : Bytes} (h1 : 0 < content.length)
    (h2 : content.length ≤ 16384) :
    storeMessage thisAddr sender blockTimestamp content s =
      .error "panic: arithmetic underflow" := by
  simp only [storeMessage, not_lt, not_le]
  rw [if_neg (by omega), if_neg (by omega), if_pos]
  rw [pushMessage_other _ hne, hemp]
  rfl

/-- On a payload passing both length checks, storeResponse hits the same
    arithmetic-underflow panic. -/
theorem storeResponse_panic_of_empty {thisAddr sender : Address}
    {s : VaultState} (hne : sender ≠ thisAddr) (hemp : s sender = [])
    (blockTimestamp : Nat) {content : Bytes} (h1 : 0 < content.length)
    (h2 : content.length ≤ 16384) :
    storeResponse thisAddr sender blockTimestamp content s =
      .error "panic: arithmetic underflow" := by
  simp only [storeResponse, not_lt, not_le]
  rw [if_neg (by omega), if_neg (by omega), if_pos]
  rw [pushMessage_other _ hne, hemp]
  rfl

/-- The record appended by a call carries the payload of the call as its
    encryptedContent field. -/
theorem VaultCall.record_encryptedContent (thisAddr sender : Address)
    (c : VaultCall) : (c.record thisAddr sender).encryptedContent = c.content := by
  cases c <;> rfl

/-- A successful run of a call sequence appends exactly the records of the
    calls, in order, to the array at the contract address, and leaves every
    other array unchanged. -/
theorem runCalls_ok_spec {thisAddr sender : Address} :
    ∀ (calls : List VaultCall) (s s' : VaultState),
    runCalls thisAddr sender calls s = .ok s' →
    s' thisAddr = s thisAddr ++ calls.map (VaultCall.record thisAddr sender) ∧
    ∀ a, a ≠ thisAddr → s' a = s a := by
  intro calls
  induction calls with
  | nil =>
      intro s s' h
      injection h with h1
      subst h1
      simp
  | cons c rest ih =>
      intro s s' h
      cases c with
      | store content blockTimestamp =>
          simp only [runCalls] at h
          cases hr : storeMessage thisAddr sender blockTimestamp content s with
          | error e => rw [hr] at h; exact absurd h (by simp)
          | ok p =>
              obtain ⟨s₁, ev⟩ := p
              rw [hr] at h
              obtain ⟨h1, h2⟩ := ih s₁ s' h
              rw [storeMessage_ok_state hr] at h1 h2
              constructor
              · rw [h1, pushMessage_self]
                simp [VaultCall.record]
              · intro a ha
                rw [h2 a ha, pushMessage_other _ ha]
      | respond content blockTimestamp =>
          simp only [runCalls] at h
          cases hr : storeResponse thisAddr sender blockTimestamp content s with
          | error e => rw [hr] at h; exact absurd h (by simp)
          | ok p =>
              obtain ⟨s₁, ev⟩ := p
              rw [hr] at h
              obtain ⟨h1, h2⟩ := ih s₁ s' h
              rw [storeResponse_ok_state hr] at h1 h2
              constructor
              · rw [h1, pushMessage_self]
                simp [VaultCall.record]
              · intro a ha
                rw [h2 a ha, pushMessage_other _ ha]

/-- A caller distinct from the contract address with an empty own array can
    complete no append call at all: a successful run must be empty. -/
theorem runCalls_eq_nil_of_ne {thisAddr sender : Address} {s s' : VaultState}
    (hne : sender ≠ thisAddr) (hemp : s sender = []) :
    ∀ calls, runCalls thisAddr sender calls s = .ok s' → calls = [] := by
  intro calls h
  cases calls with
  | nil => rfl
  | cons c rest =>
      exfalso
      cases c with
      | store content blockTimestamp =>
          obtain ⟨e, he⟩ :=
            storeMessage_reverts_of_empty hne hemp blockTimestamp content
          simp only [runCalls] at h
          rw [he] at h
          exact absurd h (by simp)
      | respond content blockTimestamp =>
          obtain ⟨e, he⟩ :=
            storeResponse_reverts_of_empty hne hemp blockTimestamp content
          simp only [runCalls] at h
          rw [he] at h
          exact absurd h (by simp)

/-- C1: for every address A and every sequence of N successful
    storeMessage/storeResponse calls made by A from a fresh deployment,
    getMessageCount(A) returns N afterwards, and the messages are readable at
    indices 0..N-1 in the order they were appended (array index = conversation
    position): the content at index i is the payload of the i-th call, and the
    full read returns the fields of the i-th appended record. -/
theorem claim_C1 (thisAddr A : Address) (calls : List VaultCall)
    (s' : VaultState) (h : runCalls thisAddr A calls emptyVault = .ok s') :
    getMessageCount s' A = calls.length ∧
    ∀ (i : Nat) (hi : i < calls.length),
      getEncryptedContent s' A i = .ok (calls.get ⟨i, hi⟩).content ∧
      getMessage s' A i = .ok
        (((calls.get ⟨i, hi⟩).record thisAddr A).sender,
          (calls.get ⟨i, hi⟩).content,
          ((calls.get ⟨i, hi⟩).record thisAddr A).timestamp,
          ((calls.get ⟨i, hi⟩).record thisAddr A).isResponse) := by
  by_cases hA : A = thisAddr
  · subst hA
    obtain ⟨h1, _⟩ := runCalls_ok_spec calls emptyVault s' h
    have hsA : s' A = calls.map (VaultCall.record A A) := by
      rw [h1]; rfl
    constructor
    · simp [getMessageCount, hsA]
    · intro i hi
      have hlen : i < (s' A).length := by simp [hsA, hi]
      have hrec : (s' A).get ⟨i, hlen⟩ = (calls.get ⟨i, hi⟩).record A A := by
        simp [List.get_eq_getElem, hsA]
      refine ⟨?_, ?_⟩
      · simp only [getEncryptedContent]
        rw [dif_pos hlen, hrec, VaultCall.record_encryptedContent]
      · simp only [getMessage]
        rw [dif_pos hlen, hrec, VaultCall.record_encryptedContent]
  · have hnil := runCalls_eq_nil_of_ne hA rfl calls h
    subst hnil
    injection h with h1
    subst h1
    constructor
    · rfl
    · intro i hi
      exact absurd hi (by simp)

/-- Witness for C1: the contract address itself as caller, a store of payload
    bytes 1 2 then a response of payload byte 3, from a fresh deployment. -/
theorem claim_C1_witness :
    getMessageCount (pushMessage (pushMessage emptyVault 5
      ⟨"", 5, [1, 2], 100, false⟩) 5 ⟨"", 5, [3], 101, true⟩) 5 = 2 ∧
    getMessage (pushMessage (pushMessage emptyVault 5
      ⟨"", 5, [1, 2], 100, false⟩) 5 ⟨"", 5, [3], 101, true⟩) 5 1 =
      .ok (5, [3], 101, true) :=
  ⟨(claim_C1 5 5 [.store [1, 2] 100, .respond [3] 101] _ rfl).1,
   by exact ((claim_C1 5 5 [.store [1, 2] 100, .respond [3] 101] _ rfl).2
      1 (by decide)).2⟩

/-- C2: in every externally reachable state, a caller other than the contract
    itself has an empty own message list (both appends push only to the
    contract's own key), and storeMessage and storeResponse revert for it on
    every payload; on valid payloads (nonempty, at most 16384 bytes) the
    revert is the arithmetic-underflow panic of the MessageStored event index
    computed as length - 1 over the caller's still-empty list. -/
theorem claim_C2 (thisAddr sender : Address) (s : VaultState)
    (hr : Reachable thisAddr s) (hne : sender ≠ thisAddr)
    (content : Bytes) (blockTimestamp : Nat) :
    (∃ e, storeMessage thisAddr sender blockTimestamp content s = .error e) ∧
    (∃ e, storeResponse thisAddr sender blockTimestamp content s = .error e) ∧
    (0 < content.length → content.length ≤ 16384 →
      storeMessage thisAddr sender blockTimestamp content s =
        .error "panic: arithmetic underflow" ∧
      storeResponse thisAddr sender blockTimestamp content s =
        .error "panic: arithmetic underflow") := by
  have hemp : s sender = [] := reachable_other_empty hr sender hne
  exact ⟨storeMessage_reverts_of_empty hne hemp blockTimestamp content,
    storeResponse_reverts_of_empty hne hemp blockTimestamp content,
    fun h1 h2 => ⟨storeMessage_panic_of_empty hne hemp blockTimestamp h1 h2,
      storeResponse_panic_of_empty hne hemp blockTimestamp h1 h2⟩⟩

/-- Witness for C2: caller 1 against a contract at address 0 in the freshly
    deployed state, with the valid one-byte payload 9. -/
theorem claim_C2_witness :
    storeMessage 0 1 5 [9] emptyVault = .error "panic: arithmetic underflow" ∧
    storeResponse 0 1 5 [9] emptyVault = .error "panic: arithmetic underflow" :=
  (claim_C2 0 1 emptyVault Reachable.init (by decide) [9] 5).2.2
    (by decide) (by decide)

/-- C3: storeMessage and storeResponse revert with "Empty message" on an
    empty payload and with "Message too large" on a payload longer than 16384
    bytes; payloads of length 1 to 16384 pass both length checks, that is,
    neither call can fail with either length-check revert reason. -/
theorem claim_C3 (thisAddr sender blockTimestamp : Nat) (content : Bytes)
    (s : VaultState) :
    (content.length = 0 →
      storeMessage thisAddr sender blockTimestamp content s =
        .error "Empty message" ∧
      storeResponse thisAddr sender blockTimestamp content s =
        .error "Empty message") ∧
    (content.length > 16384 →
      storeMessage thisAddr sender blockTimestamp content s =
        .error "Message too large" ∧
      storeResponse thisAddr sender blockTimestamp content s =
        .error "Message too large") ∧
    (1 ≤ content.length → content.length ≤ 16384 →
      storeMessage thisAddr sender blockTimestamp content s ≠
        .error "Empty message" ∧
      storeMessage thisAddr sender blockTimestamp content s ≠
        .error "Message too large" ∧
      storeResponse thisAddr sender blockTimestamp content s ≠
        .error "Empty message" ∧
      storeResponse thisAddr sender blockTimestamp content s ≠
        .error "Message too large") := by
  refine ⟨fun h0 => ⟨?_, ?_⟩, fun hbig => ⟨?_, ?_⟩, fun h1 h2 => ⟨?_, ?_, ?_, ?_⟩⟩
  · simp only [storeMessage]
    rw [if_pos (by omega)]
  · simp only [storeResponse]
    rw [if_pos (by omega)]
  · simp only [storeMessage]
    rw [if_neg (by omega), if_pos (by omega)]
  · simp only [storeResponse]
    rw [if_neg (by omega), if_pos (by omega)]
  · simp only [storeMessage]
    rw [if_neg (by omega), if_neg (by omega)]
    split <;> simp
  · simp only [storeMessage]
    rw [if_neg (by omega), if_neg (by omega)]
    split <;> simp
  · simp only [storeResponse]
    rw [if_neg (by omega), if_neg (by omega)]
    split <;> simp
  · simp only [storeResponse]
    rw [if_neg (by omega), if_neg (by omega)]
    split <;> simp

/-- Witness for C3: the empty payload, one of 16385 bytes, and the one-byte
    payload 1, on a fresh deployment. -/
theorem claim_C3_witness :
    storeMessage 0 0 0 [] emptyVault = .error "Empty message" ∧
    storeMessage 0 0 0 (List.replicate 16385 1) emptyVault =
      .error "Message too large" ∧
    storeMessage 0 0 0 [1] emptyVault ≠ .error "Empty message" ∧
    storeMessage 0 0 0 [1] emptyVault ≠ .error "Message too large" :=
  ⟨((claim_C3 0 0 0 [] emptyVault).1 (by decide)).1,
   ((claim_C3 0 0 0 (List.replicate 16385 1) emptyVault).2.1
      (by rw [List.length_replicate]; omega)).1,
   ((claim_C3 0 0 0 [1] emptyVault).2.2 (by decide) (by decide)).1,
   ((claim_C3 0 0 0 [1] emptyVault).2.2 (by decide) (by decide)).2.1⟩

/-- C4: each indexed read (getMessageMetadata, getEncryptedContent,
    getMessage) reverts exactly when the index is at least the user's message
    count, and an in-range read returns the stored record's fields. -/
theorem claim_C4 (s : VaultState) (user index : Nat) :
    ((∃ e, getMessageMetadata s user index = .error e) ↔
      getMessageCount s user ≤ index) ∧
    ((∃ e, getEncryptedContent s user index = .error e) ↔
      getMessageCount s user ≤ index) ∧
    ((∃ e, getMessage s user index = .error e) ↔
      getMessageCount s user ≤ index) ∧
    ∀ h : index < (s user).length,
      getMessageMetadata s user index = .ok
        (((s user).get ⟨index, h⟩).sender, ((s user).get ⟨index, h⟩).timestamp,
          ((s user).get ⟨index, h⟩).isResponse) ∧
      getEncryptedContent s user index =
        .ok ((s user).get ⟨index, h⟩).encryptedContent ∧
      getMessage s user index = .ok
        (((s user).get ⟨index, h⟩).sender,
          ((s user).get ⟨index, h⟩).encryptedContent,
          ((s user).get ⟨index, h⟩).timestamp,
          ((s user).get ⟨index, h⟩).isResponse) := by
  refine ⟨?_, ?_, ?_, ?_⟩
  · unfold getMessageMetadata getMessageCount
    split <;> simp <;> omega
  · unfold getEncryptedContent getMessageCount
    split <;> simp <;> omega
  · unfold getMessage getMessageCount
    split <;> simp <;> omega
  · intro h
    exact ⟨by simp [getMessageMetadata, h], by simp [getEncryptedContent, h],
      by simp [getMessage, h]⟩

/-- Witness for C4: a state with one message stored for user 3, read in range
    at index 0 and out of range at index 1. -/
theorem claim_C4_witness :
    getMessage (fun a => if a = 3 then [⟨"", 1, [9], 4, true⟩] else []) 3 0 =
      .ok (1, [9], 4, true) ∧
    ((∃ e, getMessage (fun a => if a = 3 then [⟨"", 1, [9], 4, true⟩] else [])
        3 1 = .error e) ↔
      getMessageCount (fun a => if a = 3 then [⟨"", 1, [9], 4, true⟩] else [])
        3 ≤ 1) :=
  ⟨by exact ((claim_C4 (fun a => if a = 3 then [⟨"", 1, [9], 4, true⟩] else [])
      3 0).2.2.2 (by decide)).2.2,
   (claim_C4 (fun a => if a = 3 then [⟨"", 1, [9], 4, true⟩] else []) 3 1).2.2.1⟩

/-- C5: clearMessages called by A empties the message list of A and leaves
    the message list of every other address exactly unchanged. -/
theorem claim_C5 (A : Address) (s : VaultState) :
    getMessageCount (clearMessages A s) A = 0 ∧
    ∀ b, b ≠ A → getAllMessages (clearMessages A s) b = getAllMessages s b := by
  constructor
  · simp [getMessageCount, clearMessages]
  · intro b hb
    simp [getAllMessages, clearMessages, hb]

/-- Witness for C5: caller 2 clears over a state where every address holds one
    message; address 3's list is untouched. -/
theorem claim_C5_witness :
    getMessageCount (clearMessages 2 (fun _ => [⟨"", 1, [9], 4, true⟩])) 2 = 0 ∧
    getAllMessages (clearMessages 2 (fun _ => [⟨"", 1, [9], 4, true⟩])) 3 =
      getAllMessages (fun _ => [⟨"", 1, [9], 4, true⟩]) 3 :=
  ⟨(claim_C5 2 (fun _ => [⟨"", 1, [9], 4, true⟩])).1,
   (claim_C5 2 (fun _ => [⟨"", 1, [9], 4, true⟩])).2 3 (by decide)⟩

/-- C6: requestDecryption never reverts, for any caller, timestamp and state,
    and returns the state unchanged: every address's stored message list is
    exactly as before; only the DecryptionRequested event is produced. -/
theorem claim_C6 (sender blockTimestamp : Nat) (s : VaultState) :
    ∃ ev, requestDecryption sender blockTimestamp s = .ok (s, ev) :=
  ⟨(sender, blockTimestamp), rfl⟩

/-- C10: in every reachable state, every stored message record has an empty
    label field: both append operations push records with label "", so the
    field carries no information. -/
theorem claim_C10 (thisAddr : Address) (s : VaultState)
    (hr : Reachable thisAddr s) :
    ∀ (a : Address) (m : Message), m ∈ s a → m.label = "" := by
  induction hr with
  | init =>
      intro a m hm
      simp [emptyVault] at hm
  | store sender blockTimestamp content _ hok ih =>
      intro a m hm
      rw [storeMessage_ok_state hok] at hm
      by_cases ha : a = thisAddr
      · subst ha
        rw [pushMessage_self] at hm
        rcases List.mem_append.mp hm with hmem | hmem
        · exact ih a m hmem
        · rw [List.mem_singleton.mp hmem]
      · rw [pushMessage_other _ ha] at hm
        exact ih a m hm
  | respond sender blockTimestamp content _ hok ih =>
      intro a m hm
      rw [storeResponse_ok_state hok] at hm
      by_cases ha : a = thisAddr
      · subst ha
        rw [pushMessage_self] at hm
        rcases List.mem_append.mp hm with hmem | hmem
        · exact ih a m hmem
        · rw [List.mem_singleton.mp hmem]
      · rw [pushMessage_other _ ha] at hm
        exact ih a m hm
  | clear sender _ ih =>
      intro a m hm
      simp only [clearMessages] at hm
      split at hm
      · simp at hm
      · exact ih a m hm

/-- Witness for C10: the state after one successful storeMessage call made by
    the contract address itself, whose single stored record has label "". -/
theorem claim_C10_witness :
    (Message.mk "" 7 [1] 5 false).label = "" :=
  claim_C10 7 (pushMessage emptyVault 7 ⟨"", 7, [1], 5, false⟩)
    (Reachable.store 7 5 [1] Reachable.init rfl) 7 ⟨"", 7, [1], 5, false⟩
    (by simp [pushMessage, emptyVault])

end WhisperVault

namespace WhisperClient

/-- C7: in the decryption batch of decryptAllMessages, failures are isolated
    per message: the batch always produces one output per input (it cannot
    throw because of a per-message failure), a message whose payload fails to
    decrypt is returned with decryptedText "[Decryption failed]" and all other
    fields intact, and every message whose payload decrypts is returned with
    its decrypted text, independently of the failures. -/
theorem claim_C7 (dec : String → String → Except String String)
    (password : String) (messages : List ClientMessage) :
    (decryptMessagesBatch dec password messages).length = messages.length ∧
    ∀ (i : Nat) (m : ClientMessage), messages[i]? = some m →
      (decryptMessagesBatch dec password messages)[i]? =
        some (decryptStep dec password m) ∧
      (∀ e, dec m.encryptedContent password = .error e →
        decryptStep dec password m =
          { m with decryptedText := some "[Decryption failed]" }) ∧
      (∀ d, dec m.encryptedContent password = .ok d →
        decryptStep dec password m = { m with decryptedText := some d }) := by
  refine ⟨by simp [decryptMessagesBatch], ?_⟩
  intro i m hm
  refine ⟨?_, ?_, ?_⟩
  · simp [decryptMessagesBatch, List.getElem?_map, hm]
  · intro e he
    simp [decryptStep, he]
  · intro d hd
    simp [decryptStep, hd]

/-- Witness for C7: a two-message batch where the first payload fails to
    decrypt and the second succeeds. -/
theorem claim_C7_witness :
    (decryptMessagesBatch
        (fun c _ => if c = "bad" then .error "tag mismatch" else .ok c) "pw"
        [⟨0, "alice", "bad", 1, false, none⟩,
         ⟨1, "bob", "hi", 2, true, none⟩])[0]? =
      some ⟨0, "alice", "bad", 1, false, some "[Decryption failed]"⟩ ∧
    (decryptMessagesBatch
        (fun c _ => if c = "bad" then .error "tag mismatch" else .ok c) "pw"
        [⟨0, "alice", "bad", 1, false, none⟩,
         ⟨1, "bob", "hi", 2, true, none⟩])[1]? =
      some ⟨1, "bob", "hi", 2, true, some "hi"⟩ := by
  constructor
  · have h := (claim_C7
      (fun c _ => if c = "bad" then .error "tag mismatch" else .ok c) "pw"
      [⟨0, "alice", "bad", 1, false, none⟩, ⟨1, "bob", "hi", 2, true, none⟩]).2
      0 ⟨0, "alice", "bad", 1, false, none⟩ rfl
    rw [h.1, h.2.1 "tag mismatch" (by rfl)]
  · have h := (claim_C7
      (fun c _ => if c = "bad" then .error "tag mismatch" else .ok c) "pw"
      [⟨0, "alice", "bad", 1, false, none⟩, ⟨1, "bob", "hi", 2, true, none⟩]).2
      1 ⟨1, "bob", "hi", 2, true, none⟩ rfl
    rw [h.1, h.2.2 "hi" (by rfl)]

/-- C8 counterexample: the empty string is malformed JSON (JSON.parse of the
    empty string throws), yet with it as the cached value the demo branch of
    loadMessages leaves both the cache entry and the current message list
    untouched, because the JavaScript truthiness guard on the cached string is
    false for the empty string: the list is not set to empty and the entry is
    not discarded. -/
theorem claim_C8_counterexample :
    (loadMessagesDemo (fun _ => .error "Unexpected end of JSON input")
        (some "") [⟨0, "alice", "x", 1, false, none⟩]).2 ≠ [] ∧
    (loadMessagesDemo (fun _ => .error "Unexpected end of JSON input")
        (some "") [⟨0, "alice", "x", 1, false, none⟩]).1 ≠ none := by
  constructor <;> decide

/-- C8 amended: when loadMessages reads a locally cached value that is a
    non-empty string and malformed JSON, the operation does not fail: the
    demo branch removes the cache entry and sets the message list to the empty
    list, and the on-chain-error fallback branch sets the message list to the
    empty list while keeping the cache entry.  (An empty-string cached value
    is skipped by the truthiness guard and leaves the list untouched.) -/
theorem claim_C8 (parseJson : String → Except String (List ClientMessage))
    (raw : String) (messages : List ClientMessage) (e : String)
    (hraw : raw ≠ "") (hp : parseJson raw = .error e) :
    loadMessagesDemo parseJson (some raw) messages = (none, []) ∧
    loadMessagesFallback parseJson (some raw) messages = (some raw, []) := by
  simp [loadMessagesDemo, loadMessagesFallback, hraw, hp]

/-- Witness for C8: the cached value is a lone opening brace, on which the
    JSON parser fails. -/
theorem claim_C8_witness :
    loadMessagesDemo (fun _ => .error "Unexpected token") (some "\x7b")
      [⟨0, "alice", "x", 1, false, none⟩] = (none, []) ∧
    loadMessagesFallback (fun _ => .error "Unexpected token") (some "\x7b")
      [⟨0, "alice", "x", 1, false, none⟩] = (some "\x7b", []) :=
  claim_C8 (fun _ => .error "Unexpected token") "\x7b"
    [⟨0, "alice", "x", 1, false, none⟩] "Unexpected token" (by decide) rfl

end WhisperClient

namespace WhisperCrypto

/-- Combining a byte list twice with the same keystream restores it. -/
theorem xorStream_xorStream (key ivWord : Nat) :
    ∀ (i : Nat) (bs : Bytes),
    xorStream key ivWord i (xorStream key ivWord i bs) = bs := by
  intro i bs
  induction bs generalizing i with
  | nil => rfl
  | cons b rest ih =>
      simp only [xorStream]
      rw [Nat.xor_cancel_right, ih]

/-- C9: round-trip identity of the client codec, modelled from the spec:
    decrypting the result of encrypting any plaintext under any password with
    the same password returns exactly the plaintext, for any fresh salt and
    initialization vector of the fixed prefix lengths. -/
theorem claim_C9 (salt iv plaintext password : Bytes)
    (hs : salt.length = saltLen) (hi : iv.length = ivLen) :
    decryptText (encryptText salt iv plaintext password) password =
      .ok plaintext := by
  have hT : ∀ (xs ys : Bytes) (n : Nat), xs.length = n → (xs ++ ys).take n = xs := by
    intro xs ys n h
    rw [← h]
    exact List.take_left xs ys
  have hD : ∀ (xs ys : Bytes) (n : Nat), xs.length = n → (xs ++ ys).drop n = ys := by
    intro xs ys n h
    rw [← h]
    exact List.drop_left xs ys
  simp only [encryptText, decryptText]
  rw [if_neg, hT salt _ saltLen hs, hD salt _ saltLen hs, hT iv _ ivLen hi,
    hD iv _ ivLen hi, List.dropLast_concat, List.getLast?_concat]
  · simp [xorStream_xorStream]
  · simp only [List.length_append, List.length_cons, List.length_nil, hs, hi,
      saltLen, ivLen]
    omega

/-- Witness for C9: a 16-byte salt of ones, a 12-byte vector of twos, the
    plaintext bytes 104 105 and the one-byte password 7. -/
theorem claim_C9_witness :
    decryptText
      (encryptText (List.replicate 16 1) (List.replicate 12 2) [104, 105] [7])
      [7] = .ok [104, 105] :=
  claim_C9 (List.replicate 16 1) (List.replicate 12 2) [104, 105] [7]
    (by decide) (by decide)

end WhisperCrypto
